import Mathlib

/-!
# Shallow embedding of the combined-waveforms calibration tool

Embedding of the core logic of `src/new/parameters.h` and
`src/new/combined.cpp` (the most recent variant, which the spec treats as
canonical).

Modelling conventions:
* C `float`/`double` values are modelled as exact rationals (`ℚ`).  The
  division `avg / n` follows the Lean convention `x / 0 = 0` where the C code
  would produce a NaN/infinity; where this matters (the all-zero weight table
  of claim C2) the weight sum `n` itself is exposed so that the division by
  zero is visible in the statement.
* The reference sample vector `ref_vector_t` (4096 unsigned ints) is
  modelled as a function `ℕ → ℕ`; `Score` only reads indices `0..4095`.
* `Score` is embedded with its sequential semantics (the `#ifndef _OPENMP`
  early `return`): the returned `Bool` records whether the scan was cut
  short by the early-exit bound.  The diagnostic `rms` (a `sqrt`, irrational)
  and the `print` output are not part of any claim and are omitted from the
  returned record; the unused `is8580` and `print` arguments are kept for
  signature fidelity.
* The process-wide PRNG is modelled as an arbitrary stream `g : ℕ → ℚ` of
  draw results together with an index that advances once per
  `GetRandomValue` / `GetNewRandomValue` call.
* The unbounded `while (!changed)` and `for (;;)` loops are modelled with an
  explicit pass count (`fuel`) and with step iteration respectively.
* The mutation machinery additionally records, as ghost instrumentation, the
  list of dimensions written by `SetValue` during a mutation pass; this data
  does not influence the computation and is needed only to state which
  dimensions were "mutated" in an iteration.
-/

namespace SidCW

/-- Model parameters (`enum class Param_t`, `src/new/parameters.h`). -/
inductive Param_t where
  | THRESHOLD
  | PULSESTRENGTH
  | TOPBIT
  | DISTANCE1
  | DISTANCE2
  deriving DecidableEq, Repr

/-- The result record `score_t` (`src/new/parameters.h`); the diagnostic
`rms` field (a floating-point square root, never used in comparisons) is
omitted. -/
structure score_t where
  audible_error : ℕ
  wrong_bits : ℕ
  total_bits : ℕ
  deriving DecidableEq, Repr

/-- `score_t` default constructor: zero errors, `total_bits = 4096*8`. -/
def score_t.init : score_t := ⟨0, 0, 4096 * 8⟩

/-- `score_t::isBetter`: the new score wins on strictly smaller
`audible_error`, with `wrong_bits` as tie-breaker. -/
def score_t.isBetter (s newScore : score_t) : Bool :=
  decide (newScore.audible_error < s.audible_error) ||
    (decide (newScore.audible_error = s.audible_error) &&
      decide (newScore.wrong_bits < s.wrong_bits))

/-- `Parameters::exponentialDistance`: `pow(distance, -i)`. -/
def exponentialDistance (distance : ℚ) (i : ℕ) : ℚ := distance ^ (-(i : ℤ))

/-- `Parameters::linearDistance`: `1 / (1 + i*distance)`. -/
def linearDistance (distance : ℚ) (i : ℕ) : ℚ := 1 / (1 + i * distance)

/-- `Parameters::quadraticDistance`: `1 / (1 + i*i*distance)`. -/
def quadraticDistance (distance : ℚ) (i : ℕ) : ℚ := 1 / (1 + (i * i) * distance)

/-- The tunable parameter set (class `Parameters`): the five floats plus the
active distance-function selector. -/
structure Parameters where
  distFunc : ℚ → ℕ → ℚ
  threshold : ℚ
  pulsestrength : ℚ
  topbit : ℚ
  distance1 : ℚ
  distance2 : ℚ

/-- `Parameters::GetValue`. -/
def Parameters.GetValue (p : Parameters) : Param_t → ℚ
  | .THRESHOLD => p.threshold
  | .PULSESTRENGTH => p.pulsestrength
  | .TOPBIT => p.topbit
  | .DISTANCE1 => p.distance1
  | .DISTANCE2 => p.distance2

/-- `Parameters::SetValue`. -/
def Parameters.SetValue (p : Parameters) : Param_t → ℚ → Parameters
  | .THRESHOLD, v => { p with threshold := v }
  | .PULSESTRENGTH, v => { p with pulsestrength := v }
  | .TOPBIT, v => { p with topbit := v }
  | .DISTANCE1, v => { p with distance1 := v }
  | .DISTANCE2, v => { p with distance2 := v }

/-- The inner loop of `Parameters::SimulateMix`: for output bit `sb`,
accumulate `avg += (1 - bitarray[cb]) * wa[sb - cb + 12]` and
`n += wa[sb - cb + 12]` over all `cb ≠ sb` in `0..11`.  The C index
`sb - cb + 12` (int arithmetic) is written `sb + 12 - cb`, which agrees with
it for `cb < 12`. -/
def mixAvgN (bitarray wa : ℕ → ℚ) (sb : ℕ) : ℚ × ℚ :=
  (List.range 12).foldl
    (fun acc cb =>
      if cb = sb then acc
      else (acc.1 + (1 - bitarray cb) * wa (sb + 12 - cb), acc.2 + wa (sb + 12 - cb)))
    (0, 0)

/-- `Parameters::SimulateMix` (the live `#if 1` branches): every bit line
whose input value is nonzero is rewritten to `1 - pulldown`, where
`pulldown = avg / n` (minus the uniform `pulsestrength` term when the pulse
waveform is active); zero bits are left untouched.  `pulldown` only reads
the original `bitarray`, so the in-place rewrite of the source is modelled
pointwise. -/
def SimulateMix (pulsestrength : ℚ) (bitarray wa : ℕ → ℚ) (HasPulse : Bool) : ℕ → ℚ :=
  fun i =>
    if bitarray i ≠ 0 then
      let an := mixAvgN bitarray wa i
      let avg := if HasPulse then an.1 - pulsestrength else an.1
      1 - avg / an.2
    else bitarray i

/-- `Parameters::GetScore8`: digitize the upper 8 of the 12 bit lines
against the threshold. -/
def GetScore8 (threshold : ℚ) (bitarray : ℕ → ℚ) : ℕ :=
  (List.range 8).foldl
    (fun result cb => if bitarray (4 + cb) > threshold then result ||| (1 <<< cb) else result)
    0

/-- `Parameters::ScoreResult`: the audible error of one phase is the XOR of
predicted and reference byte. -/
def ScoreResult (a b : ℕ) : ℕ := a ^^^ b

/-- Kernighan popcount loop of `Parameters::WrongBits`; the loop strictly
decreases `v`, so `v` itself bounds the iteration count (fuel). -/
def wrongBitsAux : ℕ → ℕ → ℕ
  | 0, _ => 0
  | fuel + 1, v => if v = 0 then 0 else 1 + wrongBitsAux fuel (v &&& (v - 1))

/-- `Parameters::WrongBits`: number of set bits of `v`. -/
def WrongBits (v : ℕ) : ℕ := wrongBitsAux v v

/-- The weight-table loop of `Parameters::Score`:
`for (i = 12; i > 0; i--) { wa[12-i] = distFunc(distance1, i); wa[12+i] = distFunc(distance2, i); }`
after `wa[12] = 1.f`.  Every cell of `wa[0..24]` is written, so the initial
function (taking the place of the uninitialized C array) is immaterial. -/
def buildWAAux (f : ℚ → ℕ → ℚ) (d1 d2 : ℚ) : ℕ → (ℕ → ℚ) → (ℕ → ℚ)
  | 0, w => w
  | i + 1, w =>
      buildWAAux f d1 d2 i
        (Function.update (Function.update w (12 - (i + 1)) (f d1 (i + 1)))
          (12 + (i + 1)) (f d2 (i + 1)))

/-- The 25-entry distance weight table `wa` of `Parameters::Score`. -/
def buildWA (f : ℚ → ℕ → ℚ) (d1 d2 : ℚ) : ℕ → ℚ :=
  buildWAAux f d1 d2 12 (Function.update (fun _ => 0) 12 1)

/-- The oscillator pattern of phase `j` (`Parameters::Score`):
`osc = (wave & 2) ? j : ((j & 0x800) == 0 ? j : (j ^ 0xfff)) << 1`, and when
saw and triangle are both selected, `osc &= osc << 1`. -/
def oscVal (wave j : ℕ) : ℕ :=
  let osc := if wave &&& 2 ≠ 0 then j else ((if j &&& 0x800 = 0 then j else j ^^^ 0xfff) <<< 1)
  if wave &&& 3 = 3 then osc &&& (osc <<< 1) else osc

/-- Expansion of `osc` into the 12-entry float bit array (1.0/0.0 per bit). -/
def mkBitArray (osc : ℕ) : ℕ → ℚ := fun i => if osc &&& (1 <<< i) ≠ 0 then 1 else 0

/-- Top-bit scaling when sawtooth is selected: `bitarray[11] *= topbit`. -/
def applyTopbit (wave : ℕ) (topbit : ℚ) (b : ℕ → ℚ) : ℕ → ℚ :=
  if wave &&& 2 = 2 then Function.update b 11 (b 11 * topbit) else b

/-- One phase of `Parameters::Score`: derive the oscillator pattern, expand
it, scale the top bit, run the analog mix, digitize. -/
def phaseSim (p : Parameters) (wave : ℕ) (wa : ℕ → ℚ) (j : ℕ) : ℕ :=
  let osc := oscVal wave j
  let bits := applyTopbit wave p.topbit (mkBitArray osc)
  let mixed := SimulateMix p.pulsestrength bits wa (decide (wave &&& 4 ≠ 0))
  GetScore8 p.threshold mixed

/-- The sequential phase loop of `Parameters::Score`: accumulate
`audible_error` and `wrong_bits` per phase; as soon as the running
`audible_error` exceeds `bestscore`, return immediately (the
`#ifndef _OPENMP` path) with the early-exit flag set.  `fuel` counts the
remaining phases (4096 at entry). -/
def ScoreLoopAux (p : Parameters) (wave : ℕ) (reference : ℕ → ℕ) (bestscore : ℕ)
    (wa : ℕ → ℚ) : ℕ → ℕ → score_t → score_t × Bool
  | 0, _, score => (score, false)
  | fuel + 1, j, score =>
      let simval := phaseSim p wave wa j
      let error := ScoreResult simval (reference j)
      let score' : score_t :=
        { score with
          audible_error := score.audible_error + error
          wrong_bits := score.wrong_bits + WrongBits error }
      if score'.audible_error > bestscore then (score', true)
      else ScoreLoopAux p wave reference bestscore wa fuel (j + 1) score'

/-- `Parameters::Score`: build the weight table, loop over the 4096
oscillator phases.  The second component records whether the evaluation was
cut short by the early-exit bound.  `is8580` and `print` are unused by the
source's score computation and kept only for signature fidelity. -/
def Parameters.Score (p : Parameters) (wave : ℕ) (is8580 : Bool) (reference : ℕ → ℕ)
    (print : Bool) (bestscore : ℕ) : score_t × Bool :=
  ScoreLoopAux p wave reference bestscore (buildWA p.distFunc p.distance1 p.distance2)
    4096 0 score_t.init

/-- `static const float EPSILON = 1e-4` (`src/new/combined.cpp`). -/
def EPSILON : ℚ := 1 / 10000

/-- One mutation of a parameter dimension (`Optimize`, `src/new/combined.cpp`):
`newValue = GetRandomValue() * oldValue`, then the clamp step: a value `≤ 0`
is replaced by `EPSILON`; a positive value below `EPSILON` is nudged by a
`GetNewRandomValue()` draw.  `k` is the index of the factor draw; the
returned index accounts for the extra draw consumed in the nudge branch. -/
def mutateDim (g : ℕ → ℚ) (k : ℕ) (oldValue : ℚ) : ℚ × ℕ :=
  let newValue := g k * oldValue
  if newValue ≤ 0 then (EPSILON, k + 1)
  else if newValue < EPSILON then (newValue + g (k + 1), k + 2)
  else (newValue, k + 1)

/-- The dimension-skip guards of `Optimize`: `PULSESTRENGTH` only affects
pulse (`wave & 0x04`), `TOPBIT` only affects saw (`wave & 0x02`). -/
def skipDim (wave : ℕ) : Param_t → Bool
  | .PULSESTRENGTH => decide (wave &&& 0x04 ≠ 0x04)
  | .TOPBIT => decide (wave &&& 0x02 ≠ 0x02)
  | _ => false

/-- The enumeration order `THRESHOLD, …, DISTANCE2` of the mutation pass. -/
def dims : List Param_t :=
  [.THRESHOLD, .PULSESTRENGTH, .TOPBIT, .DISTANCE1, .DISTANCE2]

/-- State threaded through a mutation pass: the candidate `p`, the PRNG draw
index `k`, the `changed` flag, and (ghost instrumentation, see the header)
the list of dimensions written by `SetValue` so far. -/
structure MutState where
  p : Parameters
  k : ℕ
  changed : Bool
  mutated : List Param_t

/-- One dimension of the mutation pass of `Optimize`: skip guarded
dimensions (no draw consumed), draw a decision value, and when it exceeds 1
mutate the dimension: `oldValue` is read from `bestparams`, the new value is
stored into the candidate `p`, and `changed` records whether a value
actually changed. -/
def mutatePassStep (wave : ℕ) (bestparams : Parameters) (g : ℕ → ℚ)
    (s : MutState) (i : Param_t) : MutState :=
  if skipDim wave i then s
  else if g s.k > 1 then
    let oldValue := bestparams.GetValue i
    let r := mutateDim g (s.k + 1) oldValue
    { p := s.p.SetValue i r.1
      k := r.2
      changed := s.changed || decide (oldValue ≠ r.1)
      mutated := s.mutated ++ [i] }
  else { s with k := s.k + 1 }

/-- One full pass of the mutation loop over the five dimensions. -/
def mutatePass (wave : ℕ) (bestparams : Parameters) (g : ℕ → ℚ) (s : MutState) : MutState :=
  dims.foldl (mutatePassStep wave bestparams g) s

/-- The `while (!changed)` loop of `Optimize`: repeat the pass until at least
one parameter changed.  The source loop is unbounded; `fuel` bounds the
number of passes in the model. -/
def mutateLoop (wave : ℕ) (bestparams : Parameters) (g : ℕ → ℚ) :
    ℕ → MutState → MutState
  | 0, s => s
  | fuel + 1, s =>
      if (mutatePass wave bestparams g s).changed then mutatePass wave bestparams g s
      else mutateLoop wave bestparams g fuel (mutatePass wave bestparams g s)

/-- The optimizer's working memory: `bestparams`, `bestscore`, the candidate
`p` (copied from `bestparams` once, before the loop), the PRNG draw index,
and a flag recording that the process has exited (convergence). -/
structure OptState where
  bestparams : Parameters
  bestscore : score_t
  p : Parameters
  k : ℕ
  done : Bool

/-- The mutation phase of one iteration of the `for (;;)` loop of
`Optimize`: run the pass-until-changed loop on the current candidate, with
`changed` reset and the ghost mutation record emptied. -/
def optStepInfo (wave : ℕ) (g : ℕ → ℚ) (fuel : ℕ) (s : OptState) : MutState :=
  mutateLoop wave s.bestparams g fuel ⟨s.p, s.k, false, []⟩

/-- One iteration of the Monte Carlo loop of `Optimize`: mutate, score the
candidate with `earlyExitBound = bestscore.audible_error`, then decide:
accept on `isBetter` (exiting the process when the error reaches 0, before
`bestscore` is updated), walk the plateau on equal `audible_error`
(adopting the candidate's parameters without touching `bestscore`), and
otherwise reject (note that the candidate `p` is NOT restored). -/
def optStep (wave : ℕ) (is8580 : Bool) (reference : ℕ → ℕ) (g : ℕ → ℚ) (fuel : ℕ)
    (s : OptState) : OptState :=
  if s.done then s
  else
    let m := optStepInfo wave g fuel s
    let score := (m.p.Score wave is8580 reference false s.bestscore.audible_error).1
    if s.bestscore.isBetter score then
      if score.audible_error = 0 then { s with p := m.p, k := m.k, done := true }
      else { bestparams := m.p, bestscore := score, p := m.p, k := m.k, done := false }
    else if score.audible_error = s.bestscore.audible_error then
      { s with bestparams := m.p, p := m.p, k := m.k }
    else { s with p := m.p, k := m.k }

/-- The guard at the head of `Optimize`:
`if (bestparams.distance2 == 0.f) bestparams.distance2 = bestparams.distance1;`. -/
def optimizeInitParams (bp : Parameters) : Parameters :=
  if bp.distance2 = 0 then { bp with distance2 := bp.distance1 } else bp

/-- The state of `Optimize` at loop entry: the profile parameters after the
`distance2` guard, the initial score (bound `4096 * 255`, never triggering
an early exit), the candidate initialized as a copy of `bestparams`, and the
convergence exit taken when the initial error is already 0. -/
def optimizeInitState (wave : ℕ) (is8580 : Bool) (reference : ℕ → ℕ) (bp : Parameters) :
    OptState :=
  let bp' := optimizeInitParams bp
  let bestscore := (bp'.Score wave is8580 reference true (4096 * 255)).1
  ⟨bp', bestscore, bp', 0, decide (bestscore.audible_error = 0)⟩

/-! ## Concrete inputs used in witnesses and counterexamples -/

/-- The `Parameters::reset()` defaults (`threshold = 0.9`, all other tunables
`1`), with the exponential decay shape. -/
def bpDefault : Parameters := ⟨exponentialDistance, 9 / 10, 1, 1, 1, 1⟩

/-- An all-zero reference sample vector. -/
def refZero : ℕ → ℕ := fun _ => 0

/-- An all-`0xff` reference sample vector. -/
def refFF : ℕ → ℕ := fun _ => 255

/-- A draw stream under which iteration 1 mutates only `THRESHOLD`
(decision draw 2, factor 1/90, turning the default 9/10 into 1/100) and
iteration 2 mutates only `DISTANCE1` (decision draw 2 at index 7, factor 1/2
at index 8); every other draw is 0, i.e. below the mutation decision bound. -/
def gC4 : ℕ → ℚ := fun k =>
  if k = 0 then 2
  else if k = 1 then 1 / 90
  else if k = 7 then 2
  else if k = 8 then 1 / 2
  else 0

/-- A loop-entry optimizer state over the default parameters: the candidate
`p` is a copy of `bestparams` and the recorded best `audible_error` is 10. -/
def sC4 : OptState := ⟨bpDefault, ⟨10, 2, 4096 * 8⟩, bpDefault, 0, false⟩

/-- A draw stream whose first mutation hits the nudge branch with a negative
nudge draw: decision 2, factor 1/18000 (so `newValue = 1/20000 < EPSILON`),
nudge draw -1. -/
def gC9 : ℕ → ℚ := fun k =>
  if k = 0 then 2
  else if k = 1 then 1 / 18000
  else if k = 2 then -1
  else 0

/-! ## Helper lemmas -/

/-- Reading a dimension other than the one just written is unchanged. -/
theorem getValue_setValue_ne (p : Parameters) (d : Param_t) (v : ℚ) (i : Param_t)
    (h : i ≠ d) : (p.SetValue d v).GetValue i = p.GetValue i := by
  cases d <;> cases i <;> first | rfl | exact absurd rfl h

/-- Folds of pointwise-equal step functions agree. -/
theorem foldl_congr_mem {α β : Type} (f1 f2 : β → α → β) (l : List α)
    (h : ∀ b a, a ∈ l → f1 b a = f2 b a) : ∀ b : β, l.foldl f1 b = l.foldl f2 b := by
  induction l with
  | nil => intro b; rfl
  | cons x xs ih =>
    intro b
    simp only [List.foldl_cons]
    rw [h b x (List.mem_cons_self x xs)]
    exact ih (fun b a ha => h b a (List.mem_cons_of_mem x ha)) _

/-- The mixer's accumulation loop never reads the weight table at the self
index 12: changing `wa 12` does not change the accumulated pair. -/
theorem mixAvgN_update12 (bitarray wa : ℕ → ℚ) (x : ℚ) (sb : ℕ) :
    mixAvgN bitarray (Function.update wa 12 x) sb = mixAvgN bitarray wa sb := by
  unfold mixAvgN
  apply foldl_congr_mem
  intro acc cb hcb
  by_cases h : cb = sb
  · simp [h]
  · have hlt : cb < 12 := List.mem_range.mp hcb
    have hne : sb + 12 - cb ≠ 12 := by omega
    rw [if_neg h, if_neg h, Function.update_noteq hne]

/-- `SimulateMix` never reads the weight table at the self index 12. -/
theorem simulateMix_update12 (ps : ℚ) (bits wa : ℕ → ℚ) (x : ℚ) (hp : Bool) (j : ℕ) :
    SimulateMix ps bits (Function.update wa 12 x) hp j = SimulateMix ps bits wa hp j := by
  unfold SimulateMix
  simp only [mixAvgN_update12]

/-- With all consulted cross weights equal to zero, the accumulation loop
returns the pair `(0, 0)` it started from. -/
theorem mixAvgN_zero_weights (bitarray wa : ℕ → ℚ) (sb : ℕ)
    (hw : ∀ cb, cb < 12 → cb ≠ sb → wa (sb + 12 - cb) = 0) :
    mixAvgN bitarray wa sb = (0, 0) := by
  unfold mixAvgN
  have key : ∀ (l : List ℕ), (∀ cb ∈ l, cb < 12) → ∀ acc : ℚ × ℚ,
      l.foldl
        (fun acc cb =>
          if cb = sb then acc
          else (acc.1 + (1 - bitarray cb) * wa (sb + 12 - cb), acc.2 + wa (sb + 12 - cb)))
        acc = acc := by
    intro l
    induction l with
    | nil => intro _ acc; rfl
    | cons y ys ih =>
      intro hmem acc
      simp only [List.foldl_cons]
      by_cases hy : y = sb
      · rw [if_pos hy]
        exact ih (fun c hc => hmem c (List.mem_cons_of_mem _ hc)) acc
      · rw [if_neg hy, hw y (hmem y (List.mem_cons_self _ _)) hy]
        simp only [mul_zero, add_zero]
        exact ih (fun c hc => hmem c (List.mem_cons_of_mem _ hc)) _
  exact key (List.range 12) (fun c hc => List.mem_range.mp hc) (0, 0)

/-- The early-exit flag of the phase loop is only set together with a
returned `audible_error` strictly above the bound. -/
theorem scoreLoopAux_early_bound (p : Parameters) (wave : ℕ) (reference : ℕ → ℕ)
    (bestscore : ℕ) (wa : ℕ → ℚ) :
    ∀ (fuel j : ℕ) (sc : score_t),
      (ScoreLoopAux p wave reference bestscore wa fuel j sc).2 = true →
      bestscore < (ScoreLoopAux p wave reference bestscore wa fuel j sc).1.audible_error := by
  intro fuel
  induction fuel with
  | zero =>
    intro j sc h
    simp only [ScoreLoopAux] at h
    exact absurd h (by simp)
  | succ n ih =>
    intro j sc h
    rw [ScoreLoopAux] at h ⊢
    by_cases hex :
        sc.audible_error + ScoreResult (phaseSim p wave wa j) (reference j) > bestscore
    · simp [hex]
    · simp only [hex, if_false] at h ⊢
      exact ih (j + 1) _ h

/-- `optStep` can only replace `bestscore` by a score accepted by
`isBetter`, whose `audible_error` is no larger. -/
theorem optStep_bestscore_le (wave : ℕ) (is8580 : Bool) (reference : ℕ → ℕ)
    (g : ℕ → ℚ) (fuel : ℕ) (s : OptState) :
    (optStep wave is8580 reference g fuel s).bestscore.audible_error ≤
      s.bestscore.audible_error := by
  unfold optStep
  by_cases hdone : s.done
  · simp [hdone]
  · simp only [hdone, Bool.false_eq_true, if_false]
    set sc := ((optStepInfo wave g fuel s).p.Score wave is8580 reference false
      s.bestscore.audible_error).1 with hsc
    by_cases hb : s.bestscore.isBetter sc
    · have hle : sc.audible_error ≤ s.bestscore.audible_error := by
        unfold score_t.isBetter at hb
        simp only [Bool.or_eq_true, Bool.and_eq_true, decide_eq_true_eq] at hb
        rcases hb with h | ⟨h, _⟩
        · exact le_of_lt h
        · exact le_of_eq h
      by_cases hz : sc.audible_error = 0
      · simp [hb, hz]
      · simp [hb, hz, hle]
    · by_cases he : sc.audible_error = s.bestscore.audible_error
      · simp [hb, he]
      · simp [hb, he]

/-- Frame property of one mutation-pass step: a dimension not recorded as
mutated keeps its candidate value, and was not recorded before either. -/
theorem mutatePassStep_frame (wave : ℕ) (bp : Parameters) (g : ℕ → ℚ)
    (s : MutState) (d i : Param_t)
    (h : i ∉ (mutatePassStep wave bp g s d).mutated) :
    (mutatePassStep wave bp g s d).p.GetValue i = s.p.GetValue i ∧ i ∉ s.mutated := by
  unfold mutatePassStep at h ⊢
  by_cases h1 : skipDim wave d = true
  · rw [if_pos h1] at h ⊢
    exact ⟨rfl, h⟩
  · rw [if_neg h1] at h ⊢
    by_cases h2 : g s.k > 1
    · rw [if_pos h2] at h ⊢
      dsimp only at h ⊢
      simp only [List.mem_append, List.mem_singleton, not_or] at h
      exact ⟨getValue_setValue_ne _ _ _ _ h.2, h.1⟩
    · rw [if_neg h2] at h ⊢
      exact ⟨rfl, h⟩

/-- Frame property of a fold of mutation-pass steps. -/
theorem mutateFold_frame (wave : ℕ) (bp : Parameters) (g : ℕ → ℚ) :
    ∀ (l : List Param_t) (s : MutState) (i : Param_t),
      i ∉ (l.foldl (mutatePassStep wave bp g) s).mutated →
      (l.foldl (mutatePassStep wave bp g) s).p.GetValue i = s.p.GetValue i ∧
        i ∉ s.mutated := by
  intro l
  induction l with
  | nil => intro s i h; exact ⟨rfl, h⟩
  | cons x xs ih =>
    intro s i h
    simp only [List.foldl_cons] at h ⊢
    obtain ⟨h1, h2⟩ := ih (mutatePassStep wave bp g s x) i h
    obtain ⟨h3, h4⟩ := mutatePassStep_frame wave bp g s x i h2
    exact ⟨h1.trans h3, h4⟩

/-- Frame property of the pass-until-changed loop. -/
theorem mutateLoop_frame (wave : ℕ) (bp : Parameters) (g : ℕ → ℚ) :
    ∀ (fuel : ℕ) (s : MutState) (i : Param_t),
      i ∉ (mutateLoop wave bp g fuel s).mutated →
      (mutateLoop wave bp g fuel s).p.GetValue i = s.p.GetValue i ∧ i ∉ s.mutated := by
  intro fuel
  induction fuel with
  | zero => intro s i h; exact ⟨rfl, h⟩
  | succ n ih =>
    intro s i h
    rw [mutateLoop] at h ⊢
    by_cases hc : (mutatePass wave bp g s).changed
    · simp only [hc, if_true] at h ⊢
      exact mutateFold_frame wave bp g dims s i h
    · simp only [hc, Bool.false_eq_true, if_false] at h ⊢
      obtain ⟨h1, h2⟩ := ih (mutatePass wave bp g s) i h
      obtain ⟨h3, h4⟩ := mutateFold_frame wave bp g dims s i h2
      exact ⟨h1.trans h3, h4⟩

/-! ## Claim theorems -/

/-- C1: whenever a `Score` call stops scanning phases early because of the
bound, the `audible_error` it returns is at least the bound that triggered
the exit. -/
theorem score_early_exit_sound (p : Parameters) (wave : ℕ) (is8580 : Bool)
    (reference : ℕ → ℕ) (print : Bool) (bestscore : ℕ)
    (h : (p.Score wave is8580 reference print bestscore).2 = true) :
    bestscore ≤ (p.Score wave is8580 reference print bestscore).1.audible_error :=
  le_of_lt (scoreLoopAux_early_bound p wave reference bestscore
    (buildWA p.distFunc p.distance1 p.distance2) 4096 0 score_t.init h)

/-- Witness for C1: with the default parameters, wave 3, an all-0xff
reference and bound 0, the very first phase (predicted 0, reference 0xff)
already exceeds the bound, so the scan stops early and the claim applies. -/
theorem score_early_exit_sound_witness :
    (bpDefault.Score 3 false refFF false 0).2 = true ∧
    0 ≤ (bpDefault.Score 3 false refFF false 0).1.audible_error := by
  have hflag : (bpDefault.Score 3 false refFF false 0).2 = true := by
    with_unfolding_all decide
  exact ⟨hflag, score_early_exit_sound bpDefault 3 false refFF false 0 hflag⟩

/-- C2 counterexample: with every cross-bit weight equal to 0 the
accumulated weight sum `n` of `SimulateMix` is exactly 0 — the claimed
"never divides by zero" fails, the pulldown division is `avg / 0` — and in
the exact-arithmetic model (`x / 0 = 0`) an originally-high bit is left at
1 regardless of the pulse strength (1 or 7), not at a value reflecting a
pure `pulsestrength` pull-down. -/
theorem mixer_zero_coupling_counterexample :
    (mixAvgN (fun n => if n = 0 then 1 else 0) (fun _ => 0) 0).2 = 0 ∧
    SimulateMix 1 (fun n => if n = 0 then 1 else 0) (fun _ => 0) true 0 = 1 ∧
    SimulateMix 7 (fun n => if n = 0 then 1 else 0) (fun _ => 0) true 0 = 1 := by
  refine ⟨?_, ?_, ?_⟩ <;> with_unfolding_all decide

/-- C2 (amended): if every cross-bit weight consulted by the mixer is 0,
the accumulated weight sum `n` is 0, so the pulldown is the division
`avg / 0`; with the exact-arithmetic convention `x / 0 = 0` every
originally-high bit is rewritten to exactly 1 and low bits stay put — the
`pulsestrength` contribution is annihilated rather than applied. -/
theorem mixer_zero_coupling_amended (pulsestrength : ℚ) (bitarray : ℕ → ℚ)
    (HasPulse : Bool) (wa : ℕ → ℚ)
    (hw : ∀ sb cb : ℕ, sb < 12 → cb < 12 → cb ≠ sb → wa (sb + 12 - cb) = 0)
    (i : ℕ) (hi : i < 12) :
    (mixAvgN bitarray wa i).2 = 0 ∧
    SimulateMix pulsestrength bitarray wa HasPulse i =
      (if bitarray i ≠ 0 then 1 else bitarray i) := by
  have h0 : mixAvgN bitarray wa i = (0, 0) :=
    mixAvgN_zero_weights bitarray wa i (fun cb h1 h2 => hw i cb hi h1 h2)
  refine ⟨by rw [h0], ?_⟩
  unfold SimulateMix
  by_cases hb : bitarray i ≠ 0
  · rw [if_pos hb, if_pos hb]
    simp only [h0]
    cases HasPulse <;> simp
  · rw [if_neg hb, if_neg hb]

/-- Witness for C2 (amended): all-zero weight table, all bits high, pulse
active, bit 0. -/
theorem mixer_zero_coupling_amended_witness :
    (0:ℕ) < 12 ∧
    ((mixAvgN (fun _ => (1:ℚ)) (fun _ => 0) 0).2 = 0 ∧
      SimulateMix 1 (fun _ => (1:ℚ)) (fun _ => 0) true 0 =
        (if (fun _ : ℕ => (1:ℚ)) 0 ≠ 0 then 1 else (fun _ : ℕ => (1:ℚ)) 0)) :=
  ⟨by decide, mixer_zero_coupling_amended 1 (fun _ => 1) true (fun _ => 0)
    (fun _ _ _ _ _ => rfl) 0 (by decide)⟩

/-- C3 counterexample: the exponential decay `distance ^ -i` is NOT
strictly decreasing in `i` for every positive distance: at distance 1/2 the
weights increase (`(1/2)^-2 = 4 > 2 = (1/2)^-1`). -/
theorem weight_decay_counterexample :
    (0:ℚ) < 1 / 2 ∧
    ¬ exponentialDistance (1 / 2) (1 + 1) < exponentialDistance (1 / 2) 1 := by
  constructor
  · norm_num
  · with_unfolding_all decide

/-- C3 (amended): for every distance > 0 the linear and quadratic decay
functions are strictly decreasing in `i` (for `i ≥ 1`); the exponential
decay is strictly decreasing only for distance > 1 (it is constant at
distance 1 and increasing below). -/
theorem weight_decay_amended (d : ℚ) (i : ℕ) (hi : 1 ≤ i) :
    (0 < d → linearDistance d (i + 1) < linearDistance d i ∧
      quadraticDistance d (i + 1) < quadraticDistance d i) ∧
    (1 < d → exponentialDistance d (i + 1) < exponentialDistance d i) := by
  constructor
  · intro hd
    have hi0 : (0:ℚ) ≤ (i : ℚ) := Nat.cast_nonneg i
    constructor
    · unfold linearDistance
      have hpos : (0:ℚ) < 1 + (i : ℚ) * d := by positivity
      have hlt : (1:ℚ) + (i : ℚ) * d < 1 + ((i : ℚ) + 1) * d := by nlinarith
      have := one_div_lt_one_div_of_lt hpos hlt
      push_cast
      exact this
    · unfold quadraticDistance
      have hpos : (0:ℚ) < 1 + (i : ℚ) * (i : ℚ) * d := by positivity
      have hlt : (1:ℚ) + (i : ℚ) * (i : ℚ) * d <
          1 + ((i : ℚ) + 1) * ((i : ℚ) + 1) * d := by nlinarith
      have := one_div_lt_one_div_of_lt hpos hlt
      push_cast
      exact this
  · intro hd
    have hd0 : (0:ℚ) < d := zero_lt_one.trans hd
    unfold exponentialDistance
    have hcast : (-(↑(i + 1) : ℤ)) = -(i : ℤ) - 1 := by push_cast; ring
    rw [hcast, zpow_sub_one₀ (ne_of_gt hd0), ← div_eq_mul_inv]
    exact div_lt_self (zpow_pos hd0 _) hd

/-- Witness for C3 (amended): distance 2, i = 1. -/
theorem weight_decay_amended_witness :
    1 ≤ 1 ∧
    (((0:ℚ) < 2 → linearDistance 2 (1 + 1) < linearDistance 2 1 ∧
        quadraticDistance 2 (1 + 1) < quadraticDistance 2 1) ∧
      ((1:ℚ) < 2 → exponentialDistance 2 (1 + 1) < exponentialDistance 2 1)) :=
  ⟨le_refl 1, weight_decay_amended 2 1 (le_refl 1)⟩

/-- C4 (amended): the candidate is copied from `bestparams` once before the
loop, not at the start of every iteration; what does hold is that in any
iteration that STARTS with the candidate in sync with `bestparams` (the
first iteration, and any iteration following an accepted or plateau step,
which re-sync them), every dimension not mutated during the mutation phase
still equals the corresponding `bestparams` dimension when the candidate is
scored.  After a rejected iteration the candidate can retain the rejected
values in dimensions the next iteration does not touch. -/
theorem candidate_copy_amended (wave : ℕ) (g : ℕ → ℚ) (fuel : ℕ) (s : OptState)
    (hsync : s.p = s.bestparams) (i : Param_t)
    (h : i ∉ (optStepInfo wave g fuel s).mutated) :
    (optStepInfo wave g fuel s).p.GetValue i = s.bestparams.GetValue i := by
  unfold optStepInfo at h ⊢
  obtain ⟨h1, _⟩ := mutateLoop_frame wave s.bestparams g fuel ⟨s.p, s.k, false, []⟩ i h
  rw [h1]
  dsimp only
  rw [hsync]

/-- Witness for C4 (amended): a synced state with an all-zero draw stream;
no dimension is recorded as mutated and THRESHOLD keeps its value. -/
theorem candidate_copy_amended_witness :
    sC4.p = sC4.bestparams ∧
    Param_t.THRESHOLD ∉ (optStepInfo 3 (fun _ => 0) 1 sC4).mutated ∧
    (optStepInfo 3 (fun _ => 0) 1 sC4).p.GetValue Param_t.THRESHOLD =
      sC4.bestparams.GetValue Param_t.THRESHOLD := by
  have hm : Param_t.THRESHOLD ∉ (optStepInfo 3 (fun _ => 0) 1 sC4).mutated := by
    with_unfolding_all decide
  exact ⟨rfl, hm, candidate_copy_amended 3 (fun _ => 0) 1 sC4 rfl Param_t.THRESHOLD hm⟩

set_option maxRecDepth 100000

/-- C4 counterexample: starting from the loop-entry state `sC4` (candidate
in sync with `bestparams`, recorded best `audible_error` 10), iteration 1
mutates only THRESHOLD (to 1/100), is scored 11 > 10 and rejected; at the
scoring point of iteration 2 only DISTANCE1 has been mutated, yet the
candidate's THRESHOLD (1/100, surviving from the rejected iteration) is not
equal to `bestparams`' THRESHOLD (9/10) — refuting the claim that at every
iteration the candidate is a copy of `bestparams` in all unmutated
dimensions. -/
theorem candidate_copy_counterexample :
    sC4.p = sC4.bestparams ∧
    (Param_t.THRESHOLD ∉
        (optStepInfo 3 gC4 2 (optStep 3 false refZero gC4 2 sC4)).mutated ∧
      (optStepInfo 3 gC4 2 (optStep 3 false refZero gC4 2 sC4)).p.GetValue
          Param_t.THRESHOLD ≠
        (optStep 3 false refZero gC4 2 sC4).bestparams.GetValue Param_t.THRESHOLD) :=
  ⟨rfl, by with_unfolding_all decide⟩

/-- C5: the recorded best score never regresses: along the iterated
optimizer step the sequence of `bestscore.audible_error` values is
monotonically non-increasing. -/
theorem bestscore_monotone (wave : ℕ) (is8580 : Bool) (reference : ℕ → ℕ)
    (g : ℕ → ℚ) (fuel : ℕ) (s : OptState) (n : ℕ) :
    ((optStep wave is8580 reference g fuel)^[n + 1] s).bestscore.audible_error ≤
      ((optStep wave is8580 reference g fuel)^[n] s).bestscore.audible_error := by
  rw [Function.iterate_succ_apply']
  exact optStep_bestscore_le wave is8580 reference g fuel _

/-- C6: the oscillator pattern of `Score`: `j` itself when the sawtooth bit
is set (and triangle is not), the shifted triangle-XOR pattern when sawtooth
is clear, and `j &&& (j <<< 1)` when sawtooth and triangle are both set. -/
theorem osc_pattern_cases (wave j : ℕ) :
    (wave &&& 2 ≠ 0 → wave &&& 3 ≠ 3 → oscVal wave j = j) ∧
    (wave &&& 2 = 0 →
      oscVal wave j = ((if j &&& 0x800 = 0 then j else j ^^^ 0xfff) <<< 1)) ∧
    (wave &&& 3 = 3 → oscVal wave j = j &&& (j <<< 1)) := by
  have key : wave &&& 3 = 3 → wave &&& 2 = 2 := by
    intro h
    have h32 : (3:ℕ) &&& 2 = 2 := by decide
    have hassoc : (wave &&& 3) &&& 2 = wave &&& 2 := by
      rw [Nat.and_assoc, h32]
    rw [h] at hassoc
    exact hassoc.symm.trans rfl
  refine ⟨?_, ?_, ?_⟩
  · intro h2 h3
    simp [oscVal, h2, h3]
  · intro h2
    have h3 : wave &&& 3 ≠ 3 := by
      intro hc
      rw [key hc] at h2
      exact absurd h2 (by decide)
    simp [oscVal, h2, h3]
  · intro h3
    have h2 : wave &&& 2 ≠ 0 := by
      rw [key h3]
      decide
    simp [oscVal, h2, h3]

/-- Witness for C6: wave 3 (saw+tri), j = 6. -/
theorem osc_pattern_cases_witness :
    (3:ℕ) &&& 3 = 3 ∧ oscVal 3 6 = 6 &&& (6 <<< 1) :=
  ⟨by decide, (osc_pattern_cases 3 6).2.2 (by decide)⟩

/-- C7: the weight table built before scoring has `wa[12-i] =
distFunc(distance1, i)` and `wa[12+i] = distFunc(distance2, i)` for offset
magnitudes 1..12, `wa[12] = 1`, and the mixer never consults index 12
(changing that entry does not change `SimulateMix`). -/
theorem weight_table_layout (f : ℚ → ℕ → ℚ) (d1 d2 : ℚ) (i : ℕ)
    (h1 : 1 ≤ i) (h2 : i ≤ 12) :
    buildWA f d1 d2 (12 - i) = f d1 i ∧
    buildWA f d1 d2 (12 + i) = f d2 i ∧
    buildWA f d1 d2 12 = 1 ∧
    (∀ (ps x : ℚ) (bits : ℕ → ℚ) (hp : Bool) (j : ℕ),
      SimulateMix ps bits (Function.update (buildWA f d1 d2) 12 x) hp j =
        SimulateMix ps bits (buildWA f d1 d2) hp j) := by
  refine ⟨?_, ?_, ?_, fun ps x bits hp j => simulateMix_update12 ps bits _ x hp j⟩
  · interval_cases i <;> with_unfolding_all rfl
  · interval_cases i <;> with_unfolding_all rfl
  · with_unfolding_all rfl

/-- Witness for C7: the linear decay at offsets 5, distances 1/2 and 1/3. -/
theorem weight_table_layout_witness :
    1 ≤ 5 ∧ (5:ℕ) ≤ 12 ∧
    buildWA linearDistance (1/2) (1/3) (12 - 5) = linearDistance (1/2) 5 :=
  ⟨by decide, by decide,
    (weight_table_layout linearDistance (1/2) (1/3) 5 (by decide) (by decide)).1⟩

/-- C8: a bit line whose input value is exactly 0 is still exactly 0 after
`SimulateMix`; the mixer never raises a low bit. -/
theorem mix_low_bits_untouched (pulsestrength : ℚ) (bitarray wa : ℕ → ℚ)
    (HasPulse : Bool) (i : ℕ) (h : bitarray i = 0) :
    SimulateMix pulsestrength bitarray wa HasPulse i = 0 := by
  unfold SimulateMix
  rw [if_neg (by simpa using h)]
  exact h

/-- Witness for C8: bit 3 starts at 0 among otherwise-high bits and stays 0. -/
theorem mix_low_bits_untouched_witness :
    (fun n : ℕ => if n = 3 then (0:ℚ) else 1) 3 = 0 ∧
    SimulateMix 1 (fun n => if n = 3 then (0:ℚ) else 1) (fun _ => 1) true 3 = 0 :=
  ⟨rfl, mix_low_bits_untouched 1 (fun n => if n = 3 then (0:ℚ) else 1) (fun _ => 1)
    true 3 rfl⟩

/-- C9 counterexample: the clamp step does NOT keep the stored value
positive for every draw sequence: a factor draw of 1/18000 lands the new
threshold in the nudge branch (1/20000 < EPSILON) and a nudge draw of -1
stores the negative value 1/20000 - 1 into the candidate. -/
theorem mutation_positive_counterexample :
    (mutatePass 3 bpDefault gC9 ⟨bpDefault, 0, false, []⟩).p.threshold < 0 := by
  with_unfolding_all decide

/-- C9 (amended): after the clamp step the stored value is strictly
positive provided the nudge draw consumed in the small-value branch is
nonnegative; a negative nudge draw (possible for a normal distribution) can
make the stored value negative. -/
theorem mutation_positive_amended (g : ℕ → ℚ) (k : ℕ) (oldValue : ℚ)
    (hnudge : 0 ≤ g (k + 1)) : 0 < (mutateDim g k oldValue).1 := by
  unfold mutateDim
  by_cases h1 : g k * oldValue ≤ 0
  · rw [if_pos h1]
    unfold EPSILON
    norm_num
  · rw [if_neg h1]
    push_neg at h1
    by_cases h2 : g k * oldValue < EPSILON
    · rw [if_pos h2]
      dsimp only
      linarith
    · rw [if_neg h2]
      exact h1

/-- Witness for C9 (amended): a constant-1 draw stream. -/
theorem mutation_positive_amended_witness :
    (0:ℚ) ≤ (fun _ : ℕ => (1:ℚ)) (0 + 1) ∧ 0 < (mutateDim (fun _ => 1) 0 5).1 :=
  ⟨zero_le_one, mutation_positive_amended (fun _ => 1) 0 5 zero_le_one⟩

/-- C10: a profile `distance2` of 0 is replaced by `distance1` before the
first evaluation: the guard rewrites the parameter set, the optimizer's
`bestparams` carry the replacement, and the initial score is computed on the
rewritten parameters. -/
theorem distance2_guard (wave : ℕ) (is8580 : Bool) (reference : ℕ → ℕ)
    (bp : Parameters) (h : bp.distance2 = 0) :
    optimizeInitParams bp = { bp with distance2 := bp.distance1 } ∧
    (optimizeInitState wave is8580 reference bp).bestparams =
      { bp with distance2 := bp.distance1 } ∧
    (optimizeInitState wave is8580 reference bp).bestscore =
      (Parameters.Score { bp with distance2 := bp.distance1 } wave is8580 reference
        true (4096 * 255)).1 := by
  have hg : optimizeInitParams bp = { bp with distance2 := bp.distance1 } := by
    unfold optimizeInitParams
    rw [if_pos h]
  exact ⟨hg, by unfold optimizeInitState; rw [hg], by unfold optimizeInitState; rw [hg]⟩

/-- Witness for C10: the default parameters with `distance2 = 0`. -/
theorem distance2_guard_witness :
    (Parameters.mk exponentialDistance (9/10) 1 1 1 0).distance2 = 0 ∧
    (optimizeInitState 3 false refZero
        (Parameters.mk exponentialDistance (9/10) 1 1 1 0)).bestparams =
      { Parameters.mk exponentialDistance (9/10) 1 1 1 0 with
          distance2 := (Parameters.mk exponentialDistance (9/10) 1 1 1 0).distance1 } :=
  ⟨rfl, (distance2_guard 3 false refZero
    (Parameters.mk exponentialDistance (9/10) 1 1 1 0) rfl).2.1⟩

end SidCW
